import Mathlib

/-!
# Verification of the P.S project-management backend

A shallow embedding, in Lean 4, of the data-access and mutation layer of the
repository: the in-memory store API (`src/project-backend/src/middleware/auth.middleware.ts`,
object `api`), the relational controllers
(`bootstrap.controller.ts`, `tasks.controller.ts`, `teams.controller.ts`,
`users.controller.ts`, `finances.controller.ts`), and the frontend notification
sweep (`src/App.tsx`).

Modelling conventions:
* opaque string ids stay `String`;
* calendar dates and timestamps (ISO `YYYY-MM-DD` / ISO date-time strings in the
  source, compared chronologically via `new Date`) are modelled as `Int`,
  which is order-isomorphic to the source's comparisons;
* JavaScript `undefined` on optional fields is `Option.none`;
* a mutating `api` method becomes a pure function `inputs → DB → result × DB`:
  the returned `DB` is the store after the call (unchanged on every error path,
  exactly as in the source, where all writes happen after the checks);
* SQL queries are translated clause by clause: `WHERE` is `List.filter`,
  `JOIN` is a nested lookup, `ORDER BY c.timestamp ASC` is an insertion sort
  by the timestamp column.
-/

namespace PS

/-- `NotificationPreferences` from `types.ts`. -/
structure NotificationPreferences where
  onAssignment : Bool
  onComment : Bool
  onStatusChange : Bool
  onDueDateChange : Bool
deriving Repr, DecidableEq

/-- `User` rows (`users` table / `INITIAL_USERS`). `disabled` is an optional
Bool in the source that is only ever read as a truth value, so absent is
modelled as `false`. -/
structure User where
  id : String
  name : String
  email : String
  password : String
  avatarUrl : String := ""
  role : String
  teamId : Option String := none
  projectId : Option String := none
  disabled : Bool := false
  notificationPreferences : Option NotificationPreferences := none
deriving Repr, DecidableEq

/-- `DbTeam` (`teams` table). -/
structure DbTeam where
  id : String
  name : String
  leaderId : Option String := none
deriving Repr, DecidableEq

/-- `Project` rows (`projects` table). -/
structure Project where
  id : String
  name : String
  description : String
  teamId : String
  budget : Int
  startDate : Int
  endDate : Int
deriving Repr, DecidableEq

/-- `DbTask`: the core task row, without the join-table data. -/
structure DbTask where
  id : String
  title : String
  description : String
  columnId : String
  startDate : Int
  endDate : Int
  plannedCost : Int
  actualCost : Int
  baselineStartDate : Option Int := none
  baselineEndDate : Option Int := none
  projectId : String
  isMilestone : Bool := false
  parentId : Option String := none
deriving Repr, DecidableEq

/-- `DbComment` (`comments` table). -/
structure DbComment where
  id : String
  userId : String
  text : String
  timestamp : Int
  taskId : String
  parentId : Option String := none
deriving Repr, DecidableEq

/-- A `task_assignees` join row. -/
structure TaskAssignee where
  task_id : String
  user_id : String
deriving Repr, DecidableEq

/-- A `task_dependencies` join row (directed: source precedes target). -/
structure TaskDependency where
  source_task_id : String
  target_task_id : String
deriving Repr, DecidableEq

/-- `FinancialTransaction` (`financial_entries` table). Entry dates are kept
as the source's date strings: they are stored and returned, never compared. -/
structure FinancialTransaction where
  id : String
  type : String
  date : String
  source : String
  description : String
  amount : Int
  projectId : String
deriving Repr, DecidableEq

/-- The id-less transaction data: the request body of the relational
`addFinancialEntry` and the `Omit<FinancialTransaction, 'id'>` argument of the
in-memory `api.addFinancialTransaction`. -/
structure FinBody where
  type : String
  date : String
  source : String
  description : String
  amount : Int
  projectId : String
deriving Repr, DecidableEq

/-- Attach a generated id to transaction data. -/
def FinBody.withId (b : FinBody) (id : String) : FinancialTransaction :=
  { id := id, type := b.type, date := b.date, source := b.source,
    description := b.description, amount := b.amount, projectId := b.projectId }

/-- The store: the eight collections of the simulated database `db` in
`auth.middleware.ts`, which are also exactly the eight relational tables. -/
structure DB where
  users : List User
  teams : List DbTeam
  projects : List Project
  tasks : List DbTask
  financial_entries : List FinancialTransaction
  comments : List DbComment
  task_assignees : List TaskAssignee
  task_dependencies : List TaskDependency
deriving Repr, DecidableEq

/-- A comment as embedded in an assembled task: the `Comment` view object,
with the denormalized author snapshot. The source looks the author up with
`db.users.find(...)` and asserts non-null (`user!`); the embedding keeps the
honest `Option`. -/
structure CommentVM where
  id : String
  text : String
  timestamp : Int
  user : Option User
  parentId : Option String := none
deriving Repr, DecidableEq

/-- The assembled `Task` view model: core row fields plus the three join-table
projections. -/
structure TaskVM where
  id : String
  title : String
  description : String
  columnId : String
  startDate : Int
  endDate : Int
  plannedCost : Int
  actualCost : Int
  baselineStartDate : Option Int := none
  baselineEndDate : Option Int := none
  projectId : String
  isMilestone : Bool := false
  parentId : Option String := none
  assigneeIds : List String
  dependencies : List String
  comments : List CommentVM
deriving Repr, DecidableEq

/-- The destructuring `const { comments, assigneeIds, dependencies, ...coreTask }`
applied to an assembled task: the core row that `updateTask` writes back. -/
def TaskVM.core (t : TaskVM) : DbTask :=
  { id := t.id, title := t.title, description := t.description,
    columnId := t.columnId, startDate := t.startDate, endDate := t.endDate,
    plannedCost := t.plannedCost, actualCost := t.actualCost,
    baselineStartDate := t.baselineStartDate, baselineEndDate := t.baselineEndDate,
    projectId := t.projectId, isMilestone := t.isMilestone, parentId := t.parentId }

/-- The `findIndex` / `arr[index] = ...` mutation pattern of the in-memory
store: replace the first element satisfying `p` by its image under `f`,
returning the new element and the new list, or `none` when no element
matches (the source's "not found" branch). -/
def modifyFirst? (p : α → Bool) (f : α → α) : List α → Option (α × List α)
  | [] => none
  | x :: xs =>
    if p x then some (f x, f x :: xs)
    else (modifyFirst? p f xs).map (fun r => (r.1, x :: r.2))

namespace api

/-- `_getTaskViewModel` (in-memory): project the three join tables onto one
task row. Comments are kept in store order — the source applies no sort here. -/
def getTaskViewModel (db : DB) (dbTask : DbTask) : TaskVM :=
  { id := dbTask.id, title := dbTask.title, description := dbTask.description,
    columnId := dbTask.columnId, startDate := dbTask.startDate,
    endDate := dbTask.endDate, plannedCost := dbTask.plannedCost,
    actualCost := dbTask.actualCost,
    baselineStartDate := dbTask.baselineStartDate,
    baselineEndDate := dbTask.baselineEndDate, projectId := dbTask.projectId,
    isMilestone := dbTask.isMilestone, parentId := dbTask.parentId,
    assigneeIds := (db.task_assignees.filter (fun a => a.task_id == dbTask.id)).map
      (fun a => a.user_id),
    dependencies := (db.task_dependencies.filter (fun d => d.target_task_id == dbTask.id)).map
      (fun d => d.source_task_id),
    comments := (db.comments.filter (fun c => c.taskId == dbTask.id)).map
      (fun c =>
        { id := c.id, text := c.text, timestamp := c.timestamp,
          user := db.users.find? (fun u => u.id == c.userId),
          parentId := c.parentId }) }

/-- The payload of `api.getInitialData` / the bootstrap response. -/
structure BootstrapPayload where
  users : List User
  teams : List DbTeam
  projects : List Project
  tasks : List TaskVM
  financials : List FinancialTransaction
deriving Repr, DecidableEq

/-- `api.getInitialData` (in-memory): returns every row of every collection,
with each task assembled; it takes no caller and performs no role filtering. -/
def getInitialData (db : DB) : BootstrapPayload :=
  { users := db.users, teams := db.teams, projects := db.projects,
    tasks := db.tasks.map (fun t => getTaskViewModel db t),
    financials := db.financial_entries }

/-- `api.register` (in-memory): reject a duplicate email (case-insensitive),
otherwise replace the whole store with one fresh Super Admin account.
`Date.now()` is the `now` parameter (it only feeds the generated id). -/
def register (fullName email password companyName : String) (now : Nat) (db : DB) :
    Except String User × DB :=
  if db.users.any (fun u => u.email.toLower == email.toLower) then
    (.error "משתמש עם כתובת אימייל זו כבר קיים.", db)
  else
    let newAdmin : User :=
      { id := "u-reg-" ++ toString now, name := fullName, email := email,
        password := password,
        avatarUrl := "https://i.pravatar.cc/150?u=" ++ email,
        role := "Super Admin",
        notificationPreferences := some
          { onAssignment := true, onComment := true, onStatusChange := true,
            onDueDateChange := true } }
    (.ok newAdmin,
      { users := [newAdmin], teams := [], projects := [], tasks := [],
        financial_entries := [], comments := [], task_assignees := [],
        task_dependencies := [] })

/-- `api.updateTask` (in-memory): look up the project, authorize
(Super Admin, Team Leader of the owning team, or listed in the *submitted*
assignee set), then overwrite the core row and set-replace the assignee links.
Comments and dependency links are not touched. -/
def updateTask (updatedTask : TaskVM) (currentUser : User) (db : DB) :
    Except String TaskVM × DB :=
  match db.projects.find? (fun p => p.id == updatedTask.projectId) with
  | none => (.error "Project not found", db)
  | some project =>
    -- the source's isSuperAdmin / isTeamLeader / isAssignee consts, inlined
    if !(currentUser.role == "Super Admin")
        && !(currentUser.role == "Team Leader" && currentUser.teamId == some project.teamId)
        && !(updatedTask.assigneeIds.contains currentUser.id) then
      (.error "Unauthorized: אין לך הרשאה לעדכן משימה זו.", db)
    else
      match modifyFirst? (fun t => t.id == updatedTask.id) (fun _ => updatedTask.core)
          db.tasks with
      | some (_, tasks1) =>
        let db1 : DB :=
          { db with
            tasks := tasks1,
            task_assignees :=
              (db.task_assignees.filter (fun a => !(a.task_id == updatedTask.id)))
                ++ updatedTask.assigneeIds.map
                    (fun uid => { task_id := updatedTask.id, user_id := uid }) }
        (.ok (getTaskViewModel db1 updatedTask.core), db1)
      | none => (.error "Task not found", db)

/-- `api.addFinancialTransaction` (in-memory): only Super Admin and Team
Leader pass the gate — the gate does not look at the entry's type — and the
new entry is unshifted (prepended). -/
def addFinancialTransaction (transactionData : FinBody) (currentUser : User)
    (now : Nat) (db : DB) : Except String FinancialTransaction × DB :=
  if !(currentUser.role == "Super Admin") && !(currentUser.role == "Team Leader") then
    (.error "Unauthorized: אין לך הרשאה להוסיף רישומים כספיים.", db)
  else
    let newTransaction := transactionData.withId ("f-" ++ toString now)
    (.ok newTransaction,
      { db with financial_entries := newTransaction :: db.financial_entries })

/-- `api.deleteUser` (in-memory): Super Admin only; sets `disabled := true` on
the found row, for every role — it never removes a row. -/
def deleteUser (userId : String) (currentUser : User) (db : DB) :
    Except String User × DB :=
  if !(currentUser.role == "Super Admin") then
    (.error "Unauthorized: רק מנהלי מערכת יכולים להשבית משתמשים.", db)
  else
    match modifyFirst? (fun u => u.id == userId) (fun u => { u with disabled := true })
        db.users with
    | none => (.error "User not found", db)
    | some (u', users1) => (.ok u', { db with users := users1 })

/-- `api.deleteTeam` (in-memory): Super Admin only; drop the team row and null
out `teamId` on every user of the team, returning the changed users. The
authorization check precedes both writes, so on the error path the store is
returned untouched. -/
def deleteTeam (teamId : String) (currentUser : User) (db : DB) :
    Except String (List User) × DB :=
  if !(currentUser.role == "Super Admin") then
    (.error "Unauthorized: רק מנהלי מערכת יכולים למחוק צוותים.", db)
  else
    let updatedUsers :=
      (db.users.filter (fun u => u.teamId == some teamId)).map
        (fun u => { u with teamId := none })
    (.ok updatedUsers,
      { db with
        teams := db.teams.filter (fun t => !(t.id == teamId)),
        users := db.users.map
          (fun u => if u.teamId == some teamId then { u with teamId := none } else u) })

end api

/-! ## The relational controllers (`src/project-backend/src/api/...`)

Each SQL statement is translated clause by clause over the same `DB` record
(the tables are identical). Errors carry the source's HTTP status and
message. -/

namespace Rel

/-- The role-dependent visible-project query of `getInitialData`
(`bootstrap.controller.ts`): all projects for a Super Admin, the own team's
projects for a Team Leader, and for everyone else (Employee or Guest — one
shared branch) the `DISTINCT p.project_id` query: projects with a task the
caller is assigned to, or the project named by the caller's stored
`project_id` column (a scalar subquery over `users`). -/
def visibleProjects (user : User) (db : DB) : List Project :=
  if user.role == "Super Admin" then db.projects
  else if user.role == "Team Leader" then
    db.projects.filter (fun p => user.teamId == some p.teamId)
  else
    db.projects.filter (fun p =>
      db.tasks.any (fun t => t.projectId == p.id &&
        db.task_assignees.any (fun a => a.task_id == t.id && a.user_id == user.id))
      || (match db.users.find? (fun u => u.id == user.id) with
          | some row => row.projectId == some p.id
          | none => false))

/-- The task rows `getInitialData` fetches:
`SELECT ... FROM tasks WHERE project_id = ANY(projectIds)` for the visible
project ids. (When the visible set is empty the source skips the query and
keeps `rows = []`, which coincides with the filter.) -/
def bootstrapTasks (user : User) (db : DB) : List DbTask :=
  db.tasks.filter (fun t =>
    (visibleProjects user db).any (fun p => p.id == t.projectId))

/-- `addFinancialEntry` (`finances.controller.ts`): reject a missing/falsy
required field (JS `!x`: empty string, amount `0`) with 400; reject
`type = "Income"` from a non-Super-Admin with 403; otherwise insert. The
insert happens only after both checks, so every error path leaves the table
untouched. -/
def addFinancialEntry (b : FinBody) (user : User) (newId : String) (db : DB) :
    Except String FinancialTransaction × DB :=
  if b.type == "" || b.amount == 0 || b.date == "" || b.projectId == "" || b.source == "" then
    (.error "Missing required financial data.", db)
  else if b.type == "Income" && !(user.role == "Super Admin") then
    (.error "Not authorized to add income entries.", db)
  else
    let entry := b.withId newId
    (.ok entry, { db with financial_entries := db.financial_entries ++ [entry] })

/-- `deleteUser` (`users.controller.ts`): look the row up; a Guest row is
hard-deleted (`DELETE FROM users`, responding 204 with no body, here
`.ok none`); any other role is soft-deleted
(`UPDATE users SET disabled = true`), returning the updated row. -/
def deleteUser (userId : String) (db : DB) : Except String (Option User) × DB :=
  match db.users.find? (fun u => u.id == userId) with
  | none => (.error "User not found", db)
  | some u =>
    if u.role == "Guest" then
      (.ok none, { db with users := db.users.filter (fun w => !(w.id == userId)) })
    else
      (.ok (some { u with disabled := true }),
        { db with users := db.users.map
                    (fun w => if w.id == userId then { w with disabled := true } else w) })

/-- `addMembersToTeam` (`teams.controller.ts`): after validation and the
team-leader ownership check, run
`UPDATE users SET team_id = $1 WHERE user_id = ANY($2) AND team_id IS NULL
RETURNING ...`: only requested users whose `team_id` is currently NULL are
assigned, and only those updated rows are returned — no error is raised for
the skipped ones. -/
def addMembersToTeam (teamId : String) (user_ids : List String)
    (requestingUser : User) (db : DB) : Except String (List User) × DB :=
  if user_ids.isEmpty then (.error "User IDs array is required.", db)
  else
    match db.teams.find? (fun t => t.id == teamId) with
    | none => (.error "Team not found.", db)
    | some team =>
      if requestingUser.role == "Team Leader" && !(team.leaderId == some requestingUser.id) then
        (.error "Not authorized to add members to this team.", db)
      else
        (.ok ((db.users.filter (fun u => user_ids.contains u.id && u.teamId == none)).map
            (fun u => { u with teamId := some teamId })),
          { db with users := db.users.map
                      (fun u =>
                        if user_ids.contains u.id && u.teamId == none then
                          { u with teamId := some teamId }
                        else u) })

/-- A row of the comments–users join the relational assembly queries return
(`SELECT c.*, u.full_name, u.avatar_url, u.role, u.email FROM comments c JOIN
users u ON c.user_id = u.user_id ... ORDER BY c.timestamp ASC`). -/
structure CommentRow where
  comment_id : String
  content : String
  timestamp : Int
  parent_id : Option String
  task_id : String
  user_id : String
  full_name : String
  avatar_url : String
  role : String
  email : String
deriving Repr, DecidableEq

/-- The timestamp ordering of `ORDER BY c.timestamp ASC`. -/
def rowLE (a b : CommentRow) : Prop := a.timestamp ≤ b.timestamp

instance : DecidableRel rowLE := fun a b => inferInstanceAs (Decidable (a.timestamp ≤ b.timestamp))

instance : IsTotal CommentRow rowLE := ⟨fun a b => Int.le_total a.timestamp b.timestamp⟩

instance : IsTrans CommentRow rowLE := ⟨fun _ _ _ h h' => le_trans h h'⟩

/-- The comment query for a set of task ids: filter to the tasks, inner-join
the author row, and sort ascending by timestamp (`ORDER BY c.timestamp ASC`,
modelled as an insertion sort). -/
def commentRows (taskIds : List String) (db : DB) : List CommentRow :=
  List.insertionSort rowLE
    ((db.comments.filter (fun c => taskIds.contains c.taskId)).filterMap
      (fun c =>
        (db.users.find? (fun u => u.id == c.userId)).map
          (fun u =>
            { comment_id := c.id, content := c.text, timestamp := c.timestamp,
              parent_id := c.parentId, task_id := c.taskId, user_id := u.id,
              full_name := u.name, avatar_url := u.avatarUrl, role := u.role,
              email := u.email })))

/-- A comment as embedded by the relational assembly (author snapshot is the
joined columns, not a full user row). -/
structure RelCommentVM where
  id : String
  text : String
  timestamp : Int
  parentId : Option String
  userId : String
  userName : String
  userRole : String
  userEmail : String
deriving Repr, DecidableEq

/-- The relational `getFullTaskViewModel` (shared shape of the bootstrap
helper and the single-task helper in `tasks.controller.ts`): filter each of
the three pre-fetched rowsets down to this task and reshape. The comments
rowset arrives already ordered by the query's `ORDER BY c.timestamp ASC`. -/
def getFullTaskViewModel (taskDbRow : DbTask) (allAssignees : List TaskAssignee)
    (allDependencies : List TaskDependency) (allComments : List CommentRow) :
    List String × List String × List RelCommentVM :=
  ((allAssignees.filter (fun a => a.task_id == taskDbRow.id)).map (fun a => a.user_id),
   (allDependencies.filter (fun d => d.target_task_id == taskDbRow.id)).map
     (fun d => d.source_task_id),
   (allComments.filter (fun c => c.task_id == taskDbRow.id)).map
     (fun c =>
       { id := c.comment_id, text := c.content, timestamp := c.timestamp,
         parentId := c.parent_id, userId := c.user_id, userName := c.full_name,
         userRole := c.role, userEmail := c.email }))

end Rel

/-! ## The frontend notification state (`src/App.tsx`) -/

namespace App

/-- `Notification` from `types.ts`. The generated
`notif-${Date.now()}-${Math.random()}` id is modelled as an opaque string
produced from the call's clock value and the candidate's batch index (no
logic ever reads it back). -/
structure Notification where
  id : String
  userId : String
  text : String
  taskId : String
  timestamp : Int
  read : Bool
deriving Repr, DecidableEq

/-- An id-less, clock-less notification candidate
(`Omit<Notification, 'id' | 'timestamp' | 'read'>`). -/
structure Cand where
  userId : String
  text : String
  taskId : String
deriving Repr, DecidableEq

/-- The slice of frontend state the sweep reads and writes. -/
structure AppState where
  users : List User
  projects : List Project
  tasks : List TaskVM
  notifications : List Notification
deriving Repr, DecidableEq

/-- `getTeamLeaderForTask`: the first user with role Team Leader whose
`teamId` equals the owning project's team. -/
def getTeamLeaderForTask (projects : List Project) (users : List User)
    (task : TaskVM) : Option User :=
  match projects.find? (fun p => p.id == task.projectId) with
  | none => none
  | some project =>
    users.find? (fun u => u.role == "Team Leader" && u.teamId == some project.teamId)

/-- The stamping step of `addNotification`: attach the generated id (from the
call's clock and the batch index) and the shared timestamp, `read := false`. -/
def notifFresh (now : Int) (i : Nat) (n : Cand) : Notification :=
  { id := "notif-" ++ toString now ++ "-" ++ toString i, userId := n.userId,
    text := n.text, taskId := n.taskId, timestamp := now, read := false }

/-- The `hasPermission` test of `addNotification`: a missing recipient row or
missing preferences default to allowed; otherwise the selected preference, or
the recipient being a Guest, allows the notification. -/
def notifAllowed (users : List User) (sel : NotificationPreferences → Bool)
    (n : Notification) : Bool :=
  match users.find? (fun u => u.id == n.userId) with
  | none => true
  | some u =>
    match u.notificationPreferences with
    | none => true
    | some prefs => sel prefs || u.role == "Guest"

/-- The duplicate test of `addNotification`: an unread stored notification
with the same (userId, taskId, text) tuple. -/
def notifDup (prev : List Notification) (n : Notification) : Bool :=
  prev.any (fun p =>
    p.userId == n.userId && p.taskId == n.taskId && p.text == n.text && !p.read)

/-- The `notificationsToAdd` const of `addNotification`: stamp every
candidate, then keep those that pass the preference check and are not
duplicates of a pending unread notification. -/
def notifToAdd (users : List User) (cands : List Cand)
    (sel : NotificationPreferences → Bool) (now : Int)
    (prev : List Notification) : List Notification :=
  (cands.mapIdx (fun i n => notifFresh now i n)).filter
    (fun n => notifAllowed users sel n && !(notifDup prev n))

/-- `addNotification`: stamp each candidate with a fresh id and the shared
`now` timestamp, drop it when the recipient's preference for the category is
off, drop it when an *unread* notification with the same
(userId, taskId, text) tuple is already stored, and prepend the survivors. -/
def addNotification (users : List User) (cands : List Cand)
    (sel : NotificationPreferences → Bool) (now : Int)
    (prev : List Notification) : List Notification :=
  notifToAdd users cands sel now prev ++ prev

/-- The (userId, taskId, text) tuple the dedup rule keys on, as a predicate
on stored notifications. -/
def tupleMatch (u k x : String) (p : Notification) : Bool :=
  p.userId == u && p.taskId == k && p.text == x

/-- The overdue message text:
`שימו לב, המשימה "<title>" עברה את תאריך היעד.` -/
def overdueText (title : String) : String :=
  "שימו לב, המשימה \"" ++ title ++ "\" עברה את תאריך היעד."

/-- The candidate list the overdue `useEffect` builds: one candidate per task
whose end date is strictly before today, whose column is not done, and whose
project has a team leader. -/
def overdueCandidates (today : Int) (st : AppState) : List Cand :=
  st.tasks.filterMap (fun task =>
    match getTeamLeaderForTask st.projects st.users task with
    | some teamLeader =>
      if task.endDate < today && !(task.columnId == "col-done") then
        some { userId := teamLeader.id, text := overdueText task.title,
               taskId := task.id }
      else none
    | none => none)

/-- One run of the overdue sweep (`useEffect` in `App.tsx`): when the
candidate list is non-empty, feed it to `addNotification` under the
`onStatusChange` category. -/
def sweep (today now : Int) (st : AppState) : AppState :=
  let overdueNotifications := overdueCandidates today st
  if overdueNotifications.length > 0 then
    { st with
      notifications :=
        addNotification st.users overdueNotifications (fun p => p.onStatusChange)
          now st.notifications }
  else st

end App

/-- Modelled from the spec: the §4.1 read-visibility set of project ids, as
claim C1 states it role by role — all projects for a Super Admin, the own
team's projects for a Team Leader, projects containing at least one task
assigned to the caller for an Employee, and exactly the project matching the
caller's `projectId` for a Guest. Written from the spec's words, to be
compared with the code's `Rel.visibleProjects` / the in-memory
`api.getInitialData`. -/
def specVisibleProjectIds (caller : User) (db : DB) : List String :=
  if caller.role == "Super Admin" then db.projects.map (fun p => p.id)
  else if caller.role == "Team Leader" then
    (db.projects.filter (fun p => caller.teamId == some p.teamId)).map (fun p => p.id)
  else if caller.role == "Employee" then
    (db.projects.filter (fun p =>
      db.tasks.any (fun t => t.projectId == p.id &&
        db.task_assignees.any (fun a => a.task_id == t.id && a.user_id == caller.id)))).map
      (fun p => p.id)
  else
    (db.projects.filter (fun p => caller.projectId == some p.id)).map (fun p => p.id)

/-! ## Concrete fixtures (used by witnesses and counterexamples) -/

def saUser : User :=
  { id := "sa", name := "Admin", email := "sa@ex.com", password := "pw",
    role := "Super Admin" }

def tlUser : User :=
  { id := "tl", name := "Lead", email := "tl@ex.com", password := "pw",
    role := "Team Leader", teamId := some "tm1" }

def empUser : User :=
  { id := "emp", name := "Emp", email := "emp@ex.com", password := "pw",
    role := "Employee", teamId := some "tm1" }

def guestUser : User :=
  { id := "g1", name := "Guest", email := "g@ex.com", password := "pw",
    role := "Guest", projectId := some "p1" }

def team1 : DbTeam := { id := "tm1", name := "Team One", leaderId := some "tl" }

def proj1 : Project :=
  { id := "p1", name := "Proj", description := "", teamId := "tm1",
    budget := 100, startDate := 0, endDate := 10 }

def task1 : DbTask :=
  { id := "t1", title := "Task", description := "", columnId := "col-started",
    startDate := 0, endDate := 2, plannedCost := 0, actualCost := 0,
    projectId := "p1" }

def emptyDb : DB :=
  { users := [], teams := [], projects := [], tasks := [],
    financial_entries := [], comments := [], task_assignees := [],
    task_dependencies := [] }

def baseDb : DB :=
  { emptyDb with
      users := [saUser, tlUser, empUser, guestUser],
      teams := [team1], projects := [proj1], tasks := [task1] }

/-! ## Helper lemmas about `modifyFirst?` -/

theorem modifyFirst?_fst_mem {α} {p : α → Bool} {f : α → α} (l : List α)
    {b : α} {l' : List α} (h : modifyFirst? p f l = some (b, l')) : b ∈ l' := by
  induction l generalizing b l' with
  | nil => simp [modifyFirst?] at h
  | cons x xs ih =>
    rw [modifyFirst?] at h
    by_cases hx : p x
    · rw [if_pos hx] at h
      simp only [Option.some.injEq, Prod.mk.injEq] at h
      obtain ⟨rfl, rfl⟩ := h
      exact List.mem_cons_self _ _
    · rw [if_neg hx] at h
      rcases Option.map_eq_some'.mp h with ⟨⟨a, l2⟩, hs, hr⟩
      simp only [Option.some.injEq, Prod.mk.injEq] at hr
      obtain ⟨rfl, rfl⟩ := hr
      exact List.mem_cons_of_mem _ (ih hs)

theorem modifyFirst?_isSome_of_mem {α} (p : α → Bool) (g : α → α) {l : List α}
    {a : α} (ha : a ∈ l) (hp : p a = true) : (modifyFirst? p g l).isSome := by
  induction l with
  | nil => cases ha
  | cons x xs ih =>
    rw [modifyFirst?]
    by_cases hx : p x
    · simp [hx]
    · rw [if_neg hx]
      rcases List.mem_cons.mp ha with rfl | ha'
      · exact absurd hp hx
      · rcases Option.isSome_iff_exists.mp (ih ha') with ⟨s, hs⟩
        simp [hs]

theorem modifyFirst?_fst {α} {p : α → Bool} {f : α → α} (l : List α)
    {b : α} {l' : List α} (h : modifyFirst? p f l = some (b, l')) :
    ∃ a, p a = true ∧ b = f a := by
  induction l generalizing b l' with
  | nil => simp [modifyFirst?] at h
  | cons x xs ih =>
    rw [modifyFirst?] at h
    by_cases hx : p x
    · rw [if_pos hx] at h
      simp only [Option.some.injEq, Prod.mk.injEq] at h
      obtain ⟨rfl, rfl⟩ := h
      exact ⟨x, hx, rfl⟩
    · rw [if_neg hx] at h
      rcases Option.map_eq_some'.mp h with ⟨⟨a, l2⟩, hs, hr⟩
      simp only [Option.some.injEq, Prod.mk.injEq] at hr
      obtain ⟨rfl, rfl⟩ := hr
      exact ih hs

/-! ## Claim theorems -/

/-- C7: `updateTask` never touches the stored comments or the dependency
links: on every path (including every error path) both tables of the
resulting store equal the originals, so each task's comments and dependency
links are identical before and after the call. -/
theorem C7_updateTask_frames_comments_and_dependencies
    (updatedTask : TaskVM) (currentUser : User) (db : DB) :
    (api.updateTask updatedTask currentUser db).2.comments = db.comments
    ∧ (api.updateTask updatedTask currentUser db).2.task_dependencies
        = db.task_dependencies := by
  refine ⟨?_, ?_⟩ <;>
    · unfold api.updateTask
      split
      · rfl
      · split
        · rfl
        · split
          · rfl
          · rfl

/-- C4: `deleteTeam` by a Super Admin succeeds and, in the resulting store,
no user (member or leader) still carries the deleted `teamId`, every user who
did carry it has it unset, and the team row is gone from any subsequent
bootstrap; a caller who fails the (only, pre-write) check gets an error and
the store entirely unchanged — both effects or neither. -/
theorem C4_deleteTeam_unsets_members_and_drops_team
    (teamId : String) (cu : User) (db : DB) :
    (cu.role = "Super Admin" →
      (api.deleteTeam teamId cu db).1.isOk = true
      ∧ (∀ u ∈ (api.deleteTeam teamId cu db).2.users, u.teamId ≠ some teamId)
      ∧ (∀ u ∈ db.users, u.teamId = some teamId →
          ∃ u' ∈ (api.deleteTeam teamId cu db).2.users,
            u'.id = u.id ∧ u'.teamId = none)
      ∧ (∀ tm ∈ (api.getInitialData (api.deleteTeam teamId cu db).2).teams,
          tm.id ≠ teamId))
    ∧ (cu.role ≠ "Super Admin" →
      (api.deleteTeam teamId cu db).1.isOk = false
      ∧ (api.deleteTeam teamId cu db).2 = db) := by
  constructor
  · intro h
    have hrole : (cu.role == "Super Admin") = true := by simp [h]
    refine ⟨by simp [api.deleteTeam, hrole, Except.isOk, Except.toBool], ?_, ?_, ?_⟩
    · intro u hu
      simp only [api.deleteTeam, hrole, Bool.not_true, Bool.false_eq_true,
        if_false, List.mem_map] at hu
      rcases hu with ⟨w, _, rfl⟩
      by_cases hw : (w.teamId == some teamId) = true
      · simp [hw]
      · simp only [Bool.not_eq_true] at hw
        simp [hw]
        simpa using beq_eq_false_iff_ne.mp hw
    · intro u hu hteam
      refine ⟨{ u with teamId := none }, ?_, rfl, rfl⟩
      simp only [api.deleteTeam, hrole, Bool.not_true, Bool.false_eq_true,
        if_false, List.mem_map]
      exact ⟨u, hu, by simp [hteam]⟩
    · intro tm htm
      simp only [api.deleteTeam, api.getInitialData, hrole, Bool.not_true,
        Bool.false_eq_true, if_false, List.mem_filter] at htm
      simpa using beq_eq_false_iff_ne.mp (by simpa using htm.2)
  · intro h
    have hrole : (cu.role == "Super Admin") = false := beq_eq_false_iff_ne.mpr h
    simp [api.deleteTeam, hrole, Except.isOk, Except.toBool]

/-- The store a successful `updateTask` leaves behind, spelled out: the task
list with the first matching row replaced, the assignee links set-replaced,
everything else untouched. -/
theorem updateTask_ok (vm : TaskVM) (cu : User) (db : DB)
    (hrole : (cu.role == "Super Admin") = true) (proj : Project)
    (hfind : List.find? (fun p => p.id == vm.projectId) db.projects = some proj)
    (b1 : DbTask) (tasks1 : List DbTask)
    (hmod : modifyFirst? (fun t => t.id == vm.id) (fun _ => vm.core) db.tasks
      = some (b1, tasks1)) :
    (api.updateTask vm cu db).2 =
      { db with
        tasks := tasks1,
        task_assignees :=
          (db.task_assignees.filter (fun a => !(a.task_id == vm.id)))
            ++ vm.assigneeIds.map (fun uid => { task_id := vm.id, user_id := uid }) } := by
  unfold api.updateTask
  rw [hfind]
  simp only [hrole, Bool.not_true, Bool.false_and, Bool.false_eq_true, if_false]
  rw [hmod]

/-- C3: calling `updateTask` with assignees `[a, b]` and then with `[b, c]`
leaves exactly the links `{(task, b), (task, c)}` in the store: `a`'s link is
gone, `c`'s added, `b`'s kept, and (for `b ≠ c`) no duplicate links remain.
Stated for an authorized (Super Admin) caller on any store containing the
task's project and a task row with the submitted id. -/
theorem C3_updateTask_assignee_set_replace
    (db : DB) (vm : TaskVM) (cu : User) (a b c : String) (t0 : DbTask) (proj : Project)
    (hrole : cu.role = "Super Admin")
    (hfind : List.find? (fun p => p.id == vm.projectId) db.projects = some proj)
    (ht0 : t0 ∈ db.tasks) (hid : t0.id = vm.id) :
    ((api.updateTask { vm with assigneeIds := [b, c] } cu
        (api.updateTask { vm with assigneeIds := [a, b] } cu db).2).2.task_assignees.filter
      (fun x => x.task_id == vm.id))
      = [{ task_id := vm.id, user_id := b }, { task_id := vm.id, user_id := c }]
    ∧ (a ≠ b → a ≠ c →
        ∀ x ∈ (api.updateTask { vm with assigneeIds := [b, c] } cu
            (api.updateTask { vm with assigneeIds := [a, b] } cu db).2).2.task_assignees,
          ¬(x.task_id = vm.id ∧ x.user_id = a))
    ∧ (b ≠ c →
        ((api.updateTask { vm with assigneeIds := [b, c] } cu
            (api.updateTask { vm with assigneeIds := [a, b] } cu db).2).2.task_assignees.filter
          (fun x => x.task_id == vm.id)).Nodup) := by
  have hrole' : (cu.role == "Super Admin") = true := by simp [hrole]
  have hpt0 : (t0.id == vm.id) = true := by simp [hid]
  obtain ⟨r1, hmod1⟩ := Option.isSome_iff_exists.mp
    (modifyFirst?_isSome_of_mem (fun t => t.id == vm.id)
      (fun _ => TaskVM.core { vm with assigneeIds := [a, b] }) ht0 hpt0)
  obtain ⟨b1, tasks1⟩ := r1
  have h1 := updateTask_ok { vm with assigneeIds := [a, b] } cu db hrole' proj hfind
    b1 tasks1 hmod1
  set db1 := (api.updateTask { vm with assigneeIds := [a, b] } cu db).2 with hdb1
  have hb1mem : b1 ∈ tasks1 := modifyFirst?_fst_mem _ hmod1
  obtain ⟨a0, _, hb1⟩ := modifyFirst?_fst _ hmod1
  have hpb1 : (b1.id == vm.id) = true := by
    subst hb1; simp [TaskVM.core]
  have hb1mem' : b1 ∈ db1.tasks := by rw [h1]; exact hb1mem
  obtain ⟨r2, hmod2⟩ := Option.isSome_iff_exists.mp
    (modifyFirst?_isSome_of_mem (fun t => t.id == vm.id)
      (fun _ => TaskVM.core { vm with assigneeIds := [b, c] }) hb1mem' hpb1)
  obtain ⟨b2, tasks2⟩ := r2
  have hfind2 : List.find? (fun p => p.id == vm.projectId) db1.projects = some proj := by
    rw [h1]; exact hfind
  have h2 := updateTask_ok { vm with assigneeIds := [b, c] } cu db1 hrole' proj hfind2
    b2 tasks2 hmod2
  have hasg :
      (api.updateTask { vm with assigneeIds := [b, c] } cu db1).2.task_assignees.filter
        (fun x => x.task_id == vm.id)
        = [{ task_id := vm.id, user_id := b }, { task_id := vm.id, user_id := c }] := by
    rw [h2, h1]
    simp [List.filter_append, List.filter_filter]
  refine ⟨hasg, ?_, ?_⟩
  · intro hab hac x hx hxa
    have hxmem : x ∈ (api.updateTask { vm with assigneeIds := [b, c] } cu
        db1).2.task_assignees.filter (fun y => y.task_id == vm.id) :=
      List.mem_filter.mpr ⟨hx, by simp [hxa.1]⟩
    rw [hasg] at hxmem
    rcases List.mem_cons.mp hxmem with rfl | hxmem
    · exact hab hxa.2.symm
    · rcases List.mem_cons.mp hxmem with rfl | hxmem
      · exact hac hxa.2.symm
      · cases hxmem
  · intro hbc
    rw [hasg]
    simp [hbc]

/-- C1 (counterexample): the in-memory `getInitialData` — one of the two
cited bootstrap implementations — takes no caller and filters nothing: in a
store whose only task belongs to a project invisible to the Employee caller
(the Employee is assigned to no task, so the §4.1 visibility set is empty),
bootstrap still returns that task. -/
theorem C1_counterexample_in_memory_bootstrap_unfiltered :
    ((api.getInitialData baseDb).tasks.map (fun t => t.projectId)) = ["p1"]
    ∧ specVisibleProjectIds empUser baseDb = [] := by
  exact ⟨rfl, rfl⟩

/-- C1 (amended): the *relational* bootstrap is role-scoped — every returned
task is a stored task, a Team Leader only receives tasks of projects owned by
their own team, and any other non-Super-Admin caller (Employee and Guest
share one branch) only receives tasks of projects where the caller is an
assignee of some task or which the caller's stored `projectId` column names.
(A Super Admin receives all tasks, which is the first conjunct alone.) -/
theorem C1_relational_bootstrap_role_scoped (user : User) (db : DB) (t : DbTask)
    (ht : t ∈ Rel.bootstrapTasks user db) :
    t ∈ db.tasks
    ∧ (user.role = "Team Leader" →
        ∃ p ∈ db.projects, p.id = t.projectId ∧ user.teamId = some p.teamId)
    ∧ (user.role ≠ "Super Admin" → user.role ≠ "Team Leader" →
        ∃ p ∈ db.projects, p.id = t.projectId ∧
          ((∃ tk ∈ db.tasks, tk.projectId = p.id ∧
              ∃ asg ∈ db.task_assignees, asg.task_id = tk.id ∧ asg.user_id = user.id)
            ∨ ∃ row ∈ db.users, row.id = user.id ∧ row.projectId = some p.id)) := by
  unfold Rel.bootstrapTasks at ht
  obtain ⟨htmem, hvis⟩ := List.mem_filter.mp ht
  obtain ⟨p, hpmem, hpt⟩ := List.any_eq_true.mp hvis
  have hpid : p.id = t.projectId := eq_of_beq hpt
  refine ⟨htmem, ?_, ?_⟩
  · intro hTL
    have hvp : Rel.visibleProjects user db
        = db.projects.filter (fun q => user.teamId == some q.teamId) := by
      unfold Rel.visibleProjects
      rw [hTL]
      rfl
    rw [hvp] at hpmem
    obtain ⟨hp', hteam⟩ := List.mem_filter.mp hpmem
    exact ⟨p, hp', hpid, eq_of_beq hteam⟩
  · intro h1 h2
    have e1 : (user.role == "Super Admin") = false := beq_eq_false_iff_ne.mpr h1
    have e2 : (user.role == "Team Leader") = false := beq_eq_false_iff_ne.mpr h2
    have hvp : Rel.visibleProjects user db
        = db.projects.filter (fun q =>
            db.tasks.any (fun tk => tk.projectId == q.id &&
              db.task_assignees.any (fun a => a.task_id == tk.id && a.user_id == user.id))
            || (match db.users.find? (fun u => u.id == user.id) with
                | some row => row.projectId == some q.id
                | none => false)) := by
      unfold Rel.visibleProjects
      rw [e1, e2]
      rfl
    rw [hvp] at hpmem
    obtain ⟨hp', hcond⟩ := List.mem_filter.mp hpmem
    refine ⟨p, hp', hpid, ?_⟩
    rw [Bool.or_eq_true] at hcond
    rcases hcond with hleft | hright
    · left
      obtain ⟨tk, htk, hconj⟩ := List.any_eq_true.mp hleft
      rw [Bool.and_eq_true] at hconj
      obtain ⟨hproj, hinner⟩ := hconj
      obtain ⟨asg, hasg, hconj2⟩ := List.any_eq_true.mp hinner
      rw [Bool.and_eq_true] at hconj2
      obtain ⟨hat, hau⟩ := hconj2
      exact ⟨tk, htk, eq_of_beq hproj, asg, hasg, eq_of_beq hat, eq_of_beq hau⟩
    · right
      cases hf : db.users.find? (fun u => u.id == user.id) with
      | none => rw [hf] at hright; cases hright
      | some row =>
        rw [hf] at hright
        refine ⟨row, List.mem_of_find?_eq_some hf, ?_, eq_of_beq hright⟩
        have := List.find?_some hf
        exact eq_of_beq this

/-- C1 witness: a Team Leader's relational bootstrap at a concrete store,
showing the returned task is a stored task. -/
theorem C1_relational_bootstrap_role_scoped_witness :
    task1 ∈ baseDb.tasks :=
  (C1_relational_bootstrap_role_scoped tlUser baseDb task1 (by decide)).1

/-- An Income request body, used by the C2 instances. -/
def incomeBody : FinBody :=
  { type := "Income", date := "2026-01-01", source := "client", description := "adv",
    amount := 5, projectId := "p1" }

/-- C2 (counterexample): the in-memory `addFinancialTransaction` — one of the
two cited implementations — lets a Team Leader add an Income entry: the call
returns ok and the entry is stored, where the claim demands an Unauthorized
error and an unchanged table. -/
theorem C2_counterexample_in_memory_team_leader_income_accepted :
    (api.addFinancialTransaction incomeBody tlUser 7 emptyDb).1
        = Except.ok (incomeBody.withId "f-7")
    ∧ (api.addFinancialTransaction incomeBody tlUser 7 emptyDb).2.financial_entries
        = [incomeBody.withId "f-7"] := by
  exact ⟨rfl, rfl⟩

/-- C2 (amended): the *relational* `addFinancialEntry` enforces the rule: a
well-formed Income entry from any non-Super-Admin caller is rejected with the
403 message, and the store (in particular the financial table) is returned
unchanged. -/
theorem C2_relational_income_superadmin_only (b : FinBody) (user : User)
    (newId : String) (db : DB)
    (hrole : user.role ≠ "Super Admin") (htype : b.type = "Income")
    (hamount : b.amount ≠ 0) (hdate : b.date ≠ "") (hproj : b.projectId ≠ "")
    (hsource : b.source ≠ "") :
    (Rel.addFinancialEntry b user newId db).1
        = Except.error "Not authorized to add income entries."
    ∧ (Rel.addFinancialEntry b user newId db).2 = db := by
  have h1 : (b.type == "") = false := by rw [htype]; rfl
  have h2 : (b.amount == 0) = false := beq_eq_false_iff_ne.mpr hamount
  have h3 : (b.date == "") = false := beq_eq_false_iff_ne.mpr hdate
  have h4 : (b.projectId == "") = false := beq_eq_false_iff_ne.mpr hproj
  have h5 : (b.source == "") = false := beq_eq_false_iff_ne.mpr hsource
  have h6 : (b.type == "Income") = true := by rw [htype]; rfl
  have h7 : (user.role == "Super Admin") = false := beq_eq_false_iff_ne.mpr hrole
  unfold Rel.addFinancialEntry
  rw [h1, h2, h3, h4, h5, h6, h7]
  exact ⟨rfl, rfl⟩

/-- C2 witness: the amended rule at a concrete input — a Team Leader's
well-formed Income entry is rejected and the store handed back unchanged. -/
theorem C2_relational_income_superadmin_only_witness :
    (Rel.addFinancialEntry incomeBody tlUser "f-1" emptyDb).1
        = Except.error "Not authorized to add income entries."
    ∧ (Rel.addFinancialEntry incomeBody tlUser "f-1" emptyDb).2 = emptyDb :=
  C2_relational_income_superadmin_only incomeBody tlUser "f-1" emptyDb
    (by decide) rfl (by decide) (by decide) (by decide) (by decide)

/-- A store holding only the Guest fixture, for the C5 counterexample. -/
def dbGuestOnly : DB := { emptyDb with users := [guestUser] }

/-- C5 (counterexample): the in-memory `api.deleteUser` — one of the two
cited implementations — soft-deletes *every* role: deleting the Guest leaves
the row in place with `disabled := true`, where the claim demands the row be
removed for a Guest. -/
theorem C5_counterexample_in_memory_guest_soft_deleted :
    guestUser.role = "Guest"
    ∧ (api.deleteUser "g1" saUser dbGuestOnly).2.users
        = [{ guestUser with disabled := true }] := by
  exact ⟨rfl, rfl⟩

/-- C5 (amended): the *relational* `deleteUser` implements the asymmetry:
for a found non-Guest row the table keeps its length and contains the row
with `disabled = true` and every other field unchanged; for a found Guest
row no row with that id remains. -/
theorem C5_relational_soft_delete_except_guest (userId : String) (db : DB)
    (u : User) (hfind : List.find? (fun w => w.id == userId) db.users = some u) :
    (u.role ≠ "Guest" →
      (Rel.deleteUser userId db).2.users.length = db.users.length
      ∧ ∃ w ∈ (Rel.deleteUser userId db).2.users,
          w.id = u.id ∧ w.disabled = true ∧ w.name = u.name ∧ w.email = u.email
            ∧ w.role = u.role ∧ w.teamId = u.teamId ∧ w.projectId = u.projectId
            ∧ w.password = u.password ∧ w.avatarUrl = u.avatarUrl
            ∧ w.notificationPreferences = u.notificationPreferences)
    ∧ (u.role = "Guest" →
      ∀ w ∈ (Rel.deleteUser userId db).2.users, w.id ≠ userId) := by
  have humem : u ∈ db.users := List.mem_of_find?_eq_some hfind
  have huid := List.find?_some hfind
  constructor
  · intro hng
    have hg : (u.role == "Guest") = false := beq_eq_false_iff_ne.mpr hng
    have hres : (Rel.deleteUser userId db).2.users
        = db.users.map (fun w => if w.id == userId then { w with disabled := true } else w) := by
      unfold Rel.deleteUser
      rw [hfind]
      simp [hg]
    rw [hres]
    refine ⟨List.length_map _ _, { u with disabled := true }, ?_, rfl, rfl, rfl, rfl,
      rfl, rfl, rfl, rfl, rfl, rfl⟩
    exact List.mem_map.mpr ⟨u, humem, by simp [huid]⟩
  · intro hg
    have hg' : (u.role == "Guest") = true := by rw [hg]; rfl
    have hres : (Rel.deleteUser userId db).2.users
        = db.users.filter (fun w => !(w.id == userId)) := by
      unfold Rel.deleteUser
      rw [hfind]
      simp [hg']
    rw [hres]
    intro w hw
    have := (List.mem_filter.mp hw).2
    rw [Bool.not_eq_true'] at this
    exact beq_eq_false_iff_ne.mp this

/-- C5 witness: deleting the (non-Guest) Super Admin fixture keeps the table
length. -/
theorem C5_relational_soft_delete_except_guest_witness :
    (Rel.deleteUser "sa" baseDb).2.users.length = baseDb.users.length :=
  ((C5_relational_soft_delete_except_guest "sa" baseDb saUser (by decide)).1
    (by decide)).1

/-- C9: a successful in-memory `register` (no stored user shares the email,
case-insensitively) replaces the whole store: afterwards there is exactly one
user, a Super Admin carrying the submitted name and email, and every other
collection is empty — all pre-existing entities are discarded. -/
theorem C9_register_resets_store (fullName email password companyName : String)
    (now : Nat) (db : DB)
    (hfree : db.users.any (fun u => u.email.toLower == email.toLower) = false) :
    (api.register fullName email password companyName now db).1.isOk = true
    ∧ (api.register fullName email password companyName now db).2.users.length = 1
    ∧ (∀ u ∈ (api.register fullName email password companyName now db).2.users,
        u.role = "Super Admin" ∧ u.name = fullName ∧ u.email = email)
    ∧ (api.register fullName email password companyName now db).2.teams = []
    ∧ (api.register fullName email password companyName now db).2.projects = []
    ∧ (api.register fullName email password companyName now db).2.tasks = []
    ∧ (api.register fullName email password companyName now db).2.financial_entries = []
    ∧ (api.register fullName email password companyName now db).2.comments = []
    ∧ (api.register fullName email password companyName now db).2.task_assignees = []
    ∧ (api.register fullName email password companyName now db).2.task_dependencies
        = [] := by
  unfold api.register
  rw [hfree]
  refine ⟨rfl, rfl, ?_, rfl, rfl, rfl, rfl, rfl, rfl, rfl⟩
  intro u hu
  rcases List.mem_singleton.mp hu with rfl
  exact ⟨rfl, rfl, rfl⟩

/-- C9 witness: registering against the populated fixture store leaves
exactly one user. -/
theorem C9_register_resets_store_witness :
    (api.register "New Admin" "new@ex.com" "pw" "Co" 3 emptyDb).2.users.length = 1 :=
  (C9_register_resets_store "New Admin" "new@ex.com" "pw" "Co" 3 emptyDb
    rfl).2.1

/-- C10: relational `addMembersToTeam`, once validation and the leadership
check pass, assigns the team only to requested users whose `teamId` is
currently unset: the returned rows all carry the new team and each stems from
a previously-unassigned requested user, while every user who already had a
team — requested or not — appears unchanged in the store, with no error. -/
theorem C10_addMembersToTeam_skips_assigned_users (teamId : String)
    (user_ids : List String) (requestingUser : User) (db : DB) (team : DbTeam)
    (hne : user_ids ≠ [])
    (hfind : List.find? (fun t => t.id == teamId) db.teams = some team)
    (hauth : (requestingUser.role == "Team Leader"
        && !(team.leaderId == some requestingUser.id)) = false) :
    (∃ l, (Rel.addMembersToTeam teamId user_ids requestingUser db).1 = Except.ok l
      ∧ (∀ v ∈ l, v.teamId = some teamId)
      ∧ (∀ v ∈ l, ∃ w ∈ db.users, w.id = v.id ∧ w.teamId = none ∧ w.id ∈ user_ids))
    ∧ (∀ u ∈ db.users, u.teamId ≠ none →
        u ∈ (Rel.addMembersToTeam teamId user_ids requestingUser db).2.users) := by
  have hne' : user_ids.isEmpty = false := by
    cases user_ids with
    | nil => exact absurd rfl hne
    | cons x xs => rfl
  have hred :
      Rel.addMembersToTeam teamId user_ids requestingUser db
        = (Except.ok ((db.users.filter
              (fun u => user_ids.contains u.id && u.teamId == none)).map
              (fun u => { u with teamId := some teamId })),
            { db with users := db.users.map
                        (fun u =>
                          if user_ids.contains u.id && u.teamId == none then
                            { u with teamId := some teamId }
                          else u) }) := by
    unfold Rel.addMembersToTeam
    simp only [hne', hfind, hauth, Bool.false_eq_true, if_false]
  constructor
  · refine ⟨_, by rw [hred], ?_, ?_⟩
    · intro v hv
      obtain ⟨w, _, rfl⟩ := List.mem_map.mp hv
      rfl
    · intro v hv
      obtain ⟨w, hw, rfl⟩ := List.mem_map.mp hv
      obtain ⟨hwmem, hwcond⟩ := List.mem_filter.mp hw
      rw [Bool.and_eq_true] at hwcond
      exact ⟨w, hwmem, rfl, eq_of_beq hwcond.2, by simpa using hwcond.1⟩
  · intro u hu hteam
    rw [hred]
    have hcond : (user_ids.contains u.id && u.teamId == none) = false := by
      have : (u.teamId == none) = false := beq_eq_false_iff_ne.mpr hteam
      rw [this, Bool.and_false]
    exact List.mem_map.mpr ⟨u, hu, by rw [hcond]; rfl⟩

/-- C10 witness: the Super Admin adds an already-assigned user (the Team
Leader fixture, already in team `tm1`) to the team: the user stays unchanged
in the store. -/
theorem C10_addMembersToTeam_skips_assigned_users_witness :
    tlUser ∈ (Rel.addMembersToTeam "tm1" ["tl"] saUser baseDb).2.users :=
  (C10_addMembersToTeam_skips_assigned_users "tm1" ["tl"] saUser baseDb team1
    (by decide) (by decide) (by decide)).2 tlUser (by decide) (by decide)

/-- Two comment rows for the C8 counterexample, stored newest-first. -/
def comA : DbComment :=
  { id := "c1", userId := "emp", text := "first", timestamp := 3, taskId := "t1" }

/-- The later comment of the C8 counterexample pair. -/
def comB : DbComment :=
  { id := "c2", userId := "emp", text := "second", timestamp := 5, taskId := "t1" }

/-- A store whose comment table holds the later comment before the earlier
one (insertion order). -/
def dbUnsorted : DB := { baseDb with comments := [comB, comA] }

/-- C8 (counterexample): the in-memory `_getTaskViewModel` — one of the two
cited assembly implementations — keeps comments in store (insertion) order
and applies no sort: with the later comment inserted first, the assembled
list has timestamps `[5, 3]`, which is not ascending. -/
theorem C8_counterexample_in_memory_comments_unsorted :
    ((api.getTaskViewModel dbUnsorted task1).comments.map (fun c => c.timestamp))
        = [5, 3]
    ∧ ¬((5 : Int) ≤ 3) := by
  exact ⟨rfl, by decide⟩

/-- C8 (amended): the *relational* assembly is sorted: its comments arrive
from the SQL query with `ORDER BY c.timestamp ASC`, and per-task filtering
and reshaping preserve that order, so every assembled comment list is
ascending by timestamp whatever the insertion order in the store. -/
theorem C8_relational_comments_sorted_by_timestamp (t : DbTask)
    (asg : List TaskAssignee) (deps : List TaskDependency)
    (taskIds : List String) (db : DB) :
    List.Pairwise (fun a b : Rel.RelCommentVM => a.timestamp ≤ b.timestamp)
      (Rel.getFullTaskViewModel t asg deps (Rel.commentRows taskIds db)).2.2 := by
  have hsorted : List.Pairwise Rel.rowLE (Rel.commentRows taskIds db) :=
    List.sorted_insertionSort Rel.rowLE _
  have hfil : List.Pairwise Rel.rowLE
      ((Rel.commentRows taskIds db).filter (fun c => c.task_id == t.id)) :=
    hsorted.sublist (List.filter_sublist _)
  exact hfil.map _ (fun a b h => h)

/-- A frontend task fixture for the C6 scenario (overdue: due at day 2,
checked at day 5, not done). -/
def taskVM1 : TaskVM :=
  { id := "t1", title := "Task", description := "", columnId := "col-started",
    startDate := 0, endDate := 2, plannedCost := 0, actualCost := 0,
    projectId := "p1", assigneeIds := [], dependencies := [], comments := [] }

/-- The already-pending unread overdue notification of the C6 scenario. -/
def notif0 : App.Notification :=
  { id := "n0", userId := "tl", text := App.overdueText "Task", taskId := "t1",
    timestamp := 0, read := false }

/-- The frontend state of the C6 scenario. -/
def appSt : App.AppState :=
  { users := [saUser, tlUser], projects := [proj1], tasks := [taskVM1],
    notifications := [notif0] }

/-- If the stored list already holds an *unread* notification with a given
(userId, taskId, text) tuple, `addNotification` adds no further notification
with that tuple: every stamped candidate matching it fails the dedup check,
so the count for the tuple is unchanged. -/
theorem countP_addNotification_of_unread (users : List User) (cands : List App.Cand)
    (sel : NotificationPreferences → Bool) (now : Int)
    (prev : List App.Notification) (u k x : String)
    (hex : ∃ q ∈ prev, App.tupleMatch u k x q = true ∧ q.read = false) :
    (App.addNotification users cands sel now prev).countP (App.tupleMatch u k x)
      = prev.countP (App.tupleMatch u k x) := by
  obtain ⟨q, hq, hqm, hqr⟩ := hex
  rw [App.addNotification, List.countP_append]
  have hzero : (App.notifToAdd users cands sel now prev).countP
      (App.tupleMatch u k x) = 0 := by
    rw [List.countP_eq_zero]
    intro n hn hTn
    have hpred := (List.mem_filter.mp hn).2
    rw [Bool.and_eq_true] at hpred
    have hnodup : App.notifDup prev n = false := by
      have := hpred.2
      rwa [Bool.not_eq_true'] at this
    unfold App.tupleMatch at hTn hqm
    rw [Bool.and_eq_true, Bool.and_eq_true] at hTn hqm
    obtain ⟨⟨hnu, hnk⟩, hnx⟩ := hTn
    obtain ⟨⟨hqu, hqk⟩, hqx⟩ := hqm
    have hdup : App.notifDup prev n = true := by
      unfold App.notifDup
      refine List.any_eq_true.mpr ⟨q, hq, ?_⟩
      have e1 : q.userId = n.userId := (eq_of_beq hqu).trans (eq_of_beq hnu).symm
      have e2 : q.taskId = n.taskId := (eq_of_beq hqk).trans (eq_of_beq hnk).symm
      have e3 : q.text = n.text := (eq_of_beq hqx).trans (eq_of_beq hnx).symm
      simp [e1, e2, e3, hqr]
    rw [hnodup] at hdup
    cases hdup
  rw [hzero]
  exact Nat.zero_add _

/-- One sweep run preserves the per-tuple count when an unread notification
with that tuple is already pending, and keeps such an unread notification
pending. -/
theorem sweep_count_of_unread (today now : Int) (st : App.AppState)
    (u k x : String)
    (hex : ∃ q ∈ st.notifications, App.tupleMatch u k x q = true ∧ q.read = false) :
    (App.sweep today now st).notifications.countP (App.tupleMatch u k x)
        = st.notifications.countP (App.tupleMatch u k x)
    ∧ ∃ q ∈ (App.sweep today now st).notifications,
        App.tupleMatch u k x q = true ∧ q.read = false := by
  unfold App.sweep
  by_cases hg : (App.overdueCandidates today st).length > 0
  · rw [if_pos hg]
    refine ⟨countP_addNotification_of_unread _ _ _ _ _ _ _ _ hex, ?_⟩
    obtain ⟨q, hq, hqm, hqr⟩ := hex
    exact ⟨q, List.mem_append_right _ hq, hqm, hqr⟩
  · rw [if_neg hg]
    exact ⟨rfl, hex⟩

/-- C6: with an overdue task (due strictly before today, not done, with a
team leader) and exactly one — unread — stored notification for the
(team-leader, task, overdue-text) tuple, running the overdue sweep twice
leaves exactly one stored notification for that tuple: both runs are
deduplicated against the pending unread one and insert nothing for it. -/
theorem C6_overdue_sweep_idempotent_dedup (st : App.AppState)
    (today now1 now2 : Int) (t : TaskVM) (tl : User)
    (ht : t ∈ st.tasks) (hover : t.endDate < today)
    (hcol : t.columnId ≠ "col-done")
    (htl : App.getTeamLeaderForTask st.projects st.users t = some tl)
    (hone : st.notifications.countP
        (App.tupleMatch tl.id t.id (App.overdueText t.title)) = 1)
    (hex : ∃ q ∈ st.notifications,
        App.tupleMatch tl.id t.id (App.overdueText t.title) q = true
          ∧ q.read = false) :
    (App.sweep today now2 (App.sweep today now1 st)).notifications.countP
        (App.tupleMatch tl.id t.id (App.overdueText t.title)) = 1 := by
  obtain ⟨h1, hex1⟩ := sweep_count_of_unread today now1 st _ _ _ hex
  obtain ⟨h2, _⟩ := sweep_count_of_unread today now2 (App.sweep today now1 st)
    _ _ _ hex1
  rw [h2, h1, hone]

/-- C6 witness: the concrete overdue scenario (task due day 2, today day 5,
one pending unread notification for its team leader) swept twice, at two
different clock values, still holds exactly one notification for the tuple. -/
theorem C6_overdue_sweep_idempotent_dedup_witness :
    (App.sweep 5 11 (App.sweep 5 7 appSt)).notifications.countP
        (App.tupleMatch tlUser.id taskVM1.id (App.overdueText taskVM1.title)) = 1 :=
  C6_overdue_sweep_idempotent_dedup appSt 5 7 11 taskVM1 tlUser (by decide)
    (by decide) (by decide) (by decide) (by decide)
    ⟨notif0, by decide, by decide, rfl⟩

/-- C3 witness: the two-call scenario on the concrete fixture store, with
assignees `{A, B}` then `{B, C}`: the task's stored links are exactly the
`B` and `C` links. -/
theorem C3_updateTask_assignee_set_replace_witness :
    ((api.updateTask { taskVM1 with assigneeIds := ["B", "C"] } saUser
        (api.updateTask { taskVM1 with assigneeIds := ["A", "B"] } saUser
          baseDb).2).2.task_assignees.filter
      (fun x => x.task_id == taskVM1.id))
      = [{ task_id := taskVM1.id, user_id := "B" },
         { task_id := taskVM1.id, user_id := "C" }] :=
  (C3_updateTask_assignee_set_replace baseDb taskVM1 saUser "A" "B" "C" task1
    proj1 rfl (by decide) (by decide) rfl).1

end PS
